import Mathlib

/-!
Verification development for the hierarchical course-progress store of the
ProfAI learning platform (`src/services/course_storage.py`).

The Python module persists a fixed-shape course tree on disk.  We embed it
shallowly: each directory level becomes a structure, each JSON metadata file
becomes an optional record field, and every operation of the `CourseStorage`
class becomes a pure function over a store state (`List CourseDir`, the
children of `base_dir`).  Wall-clock timestamps (`datetime.now().isoformat()`)
are modelled by `TimeStr.iso now` where `now : Nat` counts seconds and is
passed explicitly to every mutating operation; a malformed timestamp string is
`TimeStr.bad s`.  Python's `int()` applied to a `timedelta` quotient truncates
toward zero, which is `Int.tdiv`.  Python string predicates (`str.isalnum`)
are modelled over ASCII via `Char.isAlphanum`.
-/

/-- Characters kept by `_safe_name`: `c.isalnum() or c in (' ', '-', '_')`. -/
def keepChar (c : Char) : Bool :=
  c.isAlphanum || c == ' ' || c == '-' || c == '_'

/-- Python `str.rstrip` on a character list: drop trailing whitespace. -/
def rstripChars (l : List Char) : List Char :=
  (l.reverse.dropWhile Char.isWhitespace).reverse

/-- `_safe_name`: keep alphanumerics, spaces, hyphens, underscores; strip
trailing whitespace; replace spaces by underscores; truncate to 50. -/
def safe_name (name : String) : String :=
  String.mk (((rstripChars (name.data.filter keepChar)).map
    (fun c => if c == ' ' then '_' else c)).take 50)

/-- Python `f-string` formatting `{n:02d}` for a natural number. -/
def pad2 (n : Nat) : String :=
  if n < 10 then "0" ++ toString n else toString n

/-- Directory-name prefix test (character-list prefix): a `pathlib` glob of
the form `NAME*` matches exactly the entries having `NAME` as a name prefix.
(`String.startsWith` itself is not used because its core implementation does
not reduce inside the kernel.) -/
def strStartsWith (s pre : String) : Bool :=
  pre.data.isPrefixOf s.data

/-- Python `str.strip`: drop leading and trailing whitespace. -/
def pyStrip (s : String) : String :=
  String.mk (rstripChars (s.data.dropWhile Char.isWhitespace))

/-- Timestamp strings.  `iso t` stands for `datetime.fromtimestamp(t).isoformat()`;
`bad s` is any string that `datetime.fromisoformat` (after the `Z` replacement)
rejects. -/
inductive TimeStr where
  | iso (t : Nat)
  | bad (s : String)
deriving DecidableEq, Repr

/-- `datetime.fromisoformat(x.replace('Z', '+00:00'))`, as seconds, `none` when
the parse raises. -/
def TimeStr.parse? : TimeStr → Option Nat
  | .iso t => some t
  | .bad _ => none

/-- One entry of the list handed to `save_youtube_videos`. -/
structure VideoRecord where
  title : String
  url : String
  channel : String
  transcript : Option String
  summary : Option String
deriving DecidableEq, Repr

/-- Contents of a `concept_info.json` lesson-metadata file.  Keys that the
code reads with a containment test or `dict.get` and that are absent after
materialization are optional fields (`none` = key absent / JSON null). -/
structure ConceptInfo where
  name : String
  agenda : String
  index : Nat
  subsection_name : String
  section_name : String
  created_at : TimeStr
  completed : Bool
  detailed_plan : Option String
  completed_at : Option TimeStr
  code_file : Option String
  first_code_update : Option TimeStr
  last_code_update : Option TimeStr
  total_time_minutes : Option Int
  youtube_videos : Option Nat
  youtube_videos_file : Option String
deriving DecidableEq, Repr

/-- Contents of a `section_info.json` file. -/
structure SectionInfo where
  name : String
  index : Nat
  created_at : TimeStr
deriving DecidableEq, Repr

/-- Contents of a `subsection_info.json` file. -/
structure SubsectionInfo where
  name : String
  index : Nat
  section_name : String
  created_at : TimeStr
deriving DecidableEq, Repr

/-- A lesson directory: its name, its metadata file (if present) and the
per-lesson data files. `videoFiles` holds the `video_<k>_transcript.txt` /
`video_<k>_summary.txt` files as (filename, content) pairs. -/
structure LessonDir where
  dirName : String
  conceptInfo : Option ConceptInfo
  agendaTxt : Option String
  detailedPlanTxt : Option String
  studentCodeTxt : Option String
  youtubeVideosJson : Option (List VideoRecord)
  videoFiles : List (String × String)
deriving DecidableEq, Repr

/-- A submodule directory. -/
structure SubmoduleDir where
  dirName : String
  subsectionInfo : Option SubsectionInfo
  lessons : List LessonDir
deriving DecidableEq, Repr

/-- A module directory. -/
structure ModuleDir where
  dirName : String
  sectionInfo : Option SectionInfo
  submodules : List SubmoduleDir
deriving DecidableEq, Repr

/-- Input course document: `concepts` entries (name + agenda). -/
structure ConceptDoc where
  name : String
  agenda : String
deriving DecidableEq, Repr

/-- Input course document: `subsections` entries. -/
structure SubsectionDoc where
  name : String
  concepts : List ConceptDoc
deriving DecidableEq, Repr

/-- Input course document: `sections` entries. -/
structure SectionDoc where
  name : String
  subsections : List SubsectionDoc
deriving DecidableEq, Repr

/-- The course document handed to `create_course_structure`. -/
structure CourseDoc where
  sections : List SectionDoc
deriving DecidableEq, Repr

/-- Annotated concept inside the persisted `course_structure.json` (the
`index` key is present only on the first 10 concepts of an annotated
subsection). -/
structure AConceptDoc where
  name : String
  agenda : String
  index : Option Nat
deriving DecidableEq, Repr

/-- Annotated subsection inside the persisted `course_structure.json`. -/
structure ASubsectionDoc where
  name : String
  concepts : List AConceptDoc
  index : Option Nat
deriving DecidableEq, Repr

/-- Annotated section inside the persisted `course_structure.json`. -/
structure ASectionDoc where
  name : String
  subsections : List ASubsectionDoc
  index : Option Nat
deriving DecidableEq, Repr

/-- The persisted `course_structure.json` document. -/
structure ACourseDoc where
  sections : List ASectionDoc
deriving DecidableEq, Repr

/-- Annotate the first `cap` entries of a list with their 1-based position
(`f`), leave the rest untouched (`g`) — the `for idx, x in enumerate(xs[:cap], 1)`
index-assignment loops mutate the (shared) lists in place. -/
def annotateList (cap : Nat) (f : Nat → α → β) (g : α → β) (l : List α) : List β :=
  l.enum.map (fun p => if p.1 < cap then f (p.1 + 1) p.2 else g p.2)

def rawConceptA (c : ConceptDoc) : AConceptDoc := ⟨c.name, c.agenda, none⟩

def annConceptA (i : Nat) (c : ConceptDoc) : AConceptDoc := ⟨c.name, c.agenda, some i⟩

def rawSubA (s : SubsectionDoc) : ASubsectionDoc :=
  ⟨s.name, s.concepts.map rawConceptA, none⟩

def annSubA (i : Nat) (s : SubsectionDoc) : ASubsectionDoc :=
  ⟨s.name, annotateList 10 annConceptA rawConceptA s.concepts, some i⟩

def rawSecA (s : SectionDoc) : ASectionDoc :=
  ⟨s.name, s.subsections.map rawSubA, none⟩

def annSecA (i : Nat) (s : SectionDoc) : ASectionDoc :=
  ⟨s.name, annotateList 10 annSubA rawSubA s.subsections, some i⟩

/-- The `enhanced_course_data` written to `course_structure.json`. -/
def annotateDoc (d : CourseDoc) : ACourseDoc :=
  ⟨annotateList 7 annSecA rawSecA d.sections⟩

/-- A course directory: its name, its `course_structure.json` manifest (if
present) and its module subdirectories. -/
structure CourseDir where
  dirName : String
  courseStructure : Option ACourseDoc
  modules : List ModuleDir
deriving DecidableEq, Repr

/-- Build one `lesson_<NN>_<name>` directory with its `concept_info.json`
and `agenda.txt`, as written by `create_course_structure`. -/
def buildLesson (now : Nat) (secName subName : String) (idx : Nat) (con : ConceptDoc) :
    LessonDir where
  dirName := "lesson_" ++ pad2 idx ++ "_" ++ safe_name con.name
  conceptInfo := some
    { name := con.name
      agenda := con.agenda
      index := idx
      subsection_name := subName
      section_name := secName
      created_at := TimeStr.iso now
      completed := false
      detailed_plan := none
      completed_at := none
      code_file := none
      first_code_update := none
      last_code_update := none
      total_time_minutes := none
      youtube_videos := none
      youtube_videos_file := none }
  agendaTxt := some con.agenda
  detailedPlanTxt := none
  studentCodeTxt := none
  youtubeVideosJson := none
  videoFiles := []

/-- Build one `submodule_<NN>_<name>` directory (first 10 concepts only). -/
def buildSubmodule (now : Nat) (secName : String) (idx : Nat) (sub : SubsectionDoc) :
    SubmoduleDir where
  dirName := "submodule_" ++ pad2 idx ++ "_" ++ safe_name sub.name
  subsectionInfo := some
    { name := sub.name, index := idx, section_name := secName
      created_at := TimeStr.iso now }
  lessons := (sub.concepts.take 10).enum.map
    (fun p => buildLesson now secName sub.name (p.1 + 1) p.2)

/-- Build one `module_<NN>_<name>` directory (first 10 subsections only). -/
def buildModule (now : Nat) (idx : Nat) (sec : SectionDoc) : ModuleDir where
  dirName := "module_" ++ pad2 idx ++ "_" ++ safe_name sec.name
  sectionInfo := some { name := sec.name, index := idx, created_at := TimeStr.iso now }
  submodules := (sec.subsections.take 10).enum.map
    (fun p => buildSubmodule now sec.name (p.1 + 1) p.2)

/-- The course directory written by `create_course_structure` (first 7
sections only). -/
def buildCourse (now : Nat) (name : String) (doc : CourseDoc) : CourseDir where
  dirName := safe_name name
  courseStructure := some (annotateDoc doc)
  modules := (doc.sections.take 7).enum.map (fun p => buildModule now (p.1 + 1) p.2)

/-- `create_course_structure`: if a directory for the sanitized name exists it
is removed (`shutil.rmtree`), then the tree is rebuilt from the document. -/
def create_course_structure (st : List CourseDir) (now : Nat) (name : String)
    (doc : CourseDoc) : List CourseDir :=
  let target := safe_name name
  let st1 := if st.any (fun c => c.dirName == target)
    then st.filter (fun c => c.dirName != target) else st
  st1 ++ [buildCourse now name doc]

/-- First element of a list satisfying `p`, together with its position. -/
def findPos (p : α → Bool) : List α → Option (Nat × α)
  | [] => none
  | a :: as => if p a then some (0, a) else (findPos p as).map (fun q => (q.1 + 1, q.2))

/-- First element of a list on which `f` fires, with the element's position. -/
def findSomePos (f : α → Option β) : List α → Option (Nat × β)
  | [] => none
  | a :: as =>
    match f a with
    | some b => some (0, b)
    | none => (findSomePos f as).map (fun q => (q.1 + 1, q.2))

/-- Replace the element at position `i` by `f` of it (identity out of range). -/
def listModify (f : α → α) : Nat → List α → List α
  | _, [] => []
  | 0, a :: as => f a :: as
  | n + 1, a :: as => a :: listModify f n as

/-- The course directory `base_dir / _safe_name(course_name)` together with
its position among the store's children, `none` when it does not exist. -/
def findCoursePos (st : List CourseDir) (course : String) : Option (Nat × CourseDir) :=
  findPos (fun c => c.dirName == safe_name course) st

/-- The course directory for a name, if it exists. -/
def findCourse (st : List CourseDir) (course : String) : Option CourseDir :=
  (findCoursePos st course).map (fun q => q.2)

/-- Loop body test of `_get_lesson_directory` on a `module_*` child: the
`section_info.json` file exists and its `index` equals the requested one. -/
def matchSec (m : ModuleDir) (mi : Nat) : Bool :=
  strStartsWith m.dirName "module_" &&
    (match m.sectionInfo with
     | some info => info.index == mi
     | none => false)

/-- Loop body test of `_get_lesson_directory` on a `submodule_*` child. -/
def matchSub (sm : SubmoduleDir) (si : Nat) : Bool :=
  strStartsWith sm.dirName "submodule_" &&
    (match sm.subsectionInfo with
     | some info => info.index == si
     | none => false)

/-- Loop body test of `_get_lesson_directory` on a `lesson_*` child: the
`concept_info.json` file exists and its `index` equals the requested one. -/
def matchLes (ld : LessonDir) (li : Nat) : Bool :=
  strStartsWith ld.dirName "lesson_" &&
    (match ld.conceptInfo with
     | some ci => ci.index == li
     | none => false)

/-- The three nested first-match loops of `_get_lesson_directory`: the first
module whose metadata matches `mi` is committed to (`break`), then likewise
for the submodule and the lesson.  Returns positions and the lesson. -/
def locateLesson (c : CourseDir) (mi si li : Nat) :
    Option ((Nat × Nat × Nat) × LessonDir) :=
  (findPos (fun m => matchSec m mi) c.modules).bind (fun q =>
    (findPos (fun sm => matchSub sm si) q.2.submodules).bind (fun r =>
      (findPos (fun ld => matchLes ld li) r.2.lessons).map (fun s =>
        ((q.1, r.1, s.1), s.2))))

/-- `_get_lesson_directory`: `None` when the course directory does not exist
or the metadata scan finds no lesson. -/
def get_lesson_directory (st : List CourseDir) (course : String) (mi si li : Nat) :
    Option LessonDir :=
  match findCoursePos st course with
  | none => none
  | some (_, c) => (locateLesson c mi si li).map (fun q => q.2)

/-- Fast path of `get_lesson_agenda`: glob
`module_MM_*/submodule_SS_*/lesson_LL_*` (directory-name prefix match only),
return the first matched lesson directory whose `agenda.txt` exists, with the
file's stripped content. -/
def fastAgenda (c : CourseDir) (mi si li : Nat) : Option String :=
  List.findSome? (fun ld => ld.agendaTxt.map pyStrip)
    (((c.modules.filter
        (fun m => strStartsWith m.dirName ("module_" ++ pad2 mi ++ "_"))).flatMap
      (fun m => m.submodules.filter
        (fun sm => strStartsWith sm.dirName ("submodule_" ++ pad2 si ++ "_")))).flatMap
      (fun sm => sm.lessons.filter
        (fun ld => strStartsWith ld.dirName ("lesson_" ++ pad2 li ++ "_"))))

/-- Fallback path of `get_lesson_agenda`: scan metadata files; unlike
`_get_lesson_directory` the loops have no `break`, so a module (or submodule)
whose subtree yields nothing does not stop the scan. Returns the matched
lesson's `agenda` metadata field. -/
def fallbackAgenda (c : CourseDir) (mi si li : Nat) : Option String :=
  List.findSome? (fun m =>
      match m.sectionInfo with
      | some info =>
        if info.index == mi then
          List.findSome? (fun sm =>
              match sm.subsectionInfo with
              | some sinfo =>
                if sinfo.index == si then
                  List.findSome? (fun ld =>
                      match ld.conceptInfo with
                      | some ci => if ci.index == li then some ci.agenda else none
                      | none => none)
                    (sm.lessons.filter (fun ld => strStartsWith ld.dirName "lesson_"))
                else none
              | none => none)
            (m.submodules.filter (fun sm => strStartsWith sm.dirName "submodule_"))
        else none
      | none => none)
    (c.modules.filter (fun m => strStartsWith m.dirName "module_"))

/-- `get_lesson_agenda`: `None` when the course directory does not exist,
otherwise the glob fast path, then the metadata-scan fallback. -/
def get_lesson_agenda (st : List CourseDir) (course : String) (mi si li : Nat) :
    Option String :=
  match findCoursePos st course with
  | none => none
  | some (_, c) =>
    match fastAgenda c mi si li with
    | some a => some a
    | none => fallbackAgenda c mi si li

/-- Overwrite the lesson of a submodule directory at position `pl`. -/
def subUpdater (pl : Nat) (ld : LessonDir) (sm : SubmoduleDir) : SubmoduleDir :=
  { sm with lessons := listModify (fun _ => ld) pl sm.lessons }

/-- Overwrite the lesson of a module directory at positions `ps`, `pl`. -/
def modUpdater (ps pl : Nat) (ld : LessonDir) (m : ModuleDir) : ModuleDir :=
  { m with submodules := listModify (subUpdater pl ld) ps m.submodules }

/-- Replace the lesson at the given module/submodule/lesson positions. -/
def setLessonAt (c : CourseDir) (pm ps pl : Nat) (ld : LessonDir) : CourseDir :=
  { c with modules := listModify (modUpdater ps pl ld) pm c.modules }

/-- Replace a lesson inside the store at the given course/module/submodule/
lesson positions. -/
def updateAt (st : List CourseDir) (pc pm ps pl : Nat) (ld : LessonDir) :
    List CourseDir :=
  listModify (fun c => setLessonAt c pm ps pl ld) pc st

/-- `mark_lesson_completed`: locate the lesson, set `completed` and
`completed_at`, rewrite `concept_info.json`; `False` on any lookup failure. -/
def mark_lesson_completed (st : List CourseDir) (course : String) (mi si li : Nat)
    (now : Nat) : Bool × List CourseDir :=
  match findCoursePos st course with
  | none => (false, st)
  | some (pc, c) =>
    match locateLesson c mi si li with
    | none => (false, st)
    | some ((pm, ps, pl), ld) =>
      match ld.conceptInfo with
      | none => (false, st)
      | some ci =>
        (true, updateAt st pc pm ps pl
          { ld with conceptInfo :=
                      some ({ ci with completed := true,
                                      completed_at := some (TimeStr.iso now) }) })

/-- The metadata rewrite of `save_lesson_code`: set `first_code_update` only
when absent, always set `code_file` and `last_code_update`, then best-effort
recompute `total_time_minutes` (left unchanged when a timestamp fails to
parse — the bare `except: pass`). -/
def saveCodeCi (ci : ConceptInfo) (now : Nat) : ConceptInfo :=
  let current := TimeStr.iso now
  let ci1 := if ci.first_code_update.isNone
    then { ci with first_code_update := some current } else ci
  let ci2 := { ci1 with code_file := some "student_code.txt",
                        last_code_update := some current }
  match ci2.first_code_update, ci2.last_code_update with
  | some f, some l =>
    match f.parse?, l.parse? with
    | some fs, some ls =>
      { ci2 with total_time_minutes := some (Int.tdiv ((ls : Int) - (fs : Int)) 60) }
    | _, _ => ci2
  | _, _ => ci2

/-- `save_lesson_code`: locate the lesson, write `student_code.txt`, update
the metadata when `concept_info.json` exists; `False` on lookup failure. -/
def save_lesson_code (st : List CourseDir) (course : String) (mi si li : Nat)
    (code : String) (now : Nat) : Bool × List CourseDir :=
  match findCoursePos st course with
  | none => (false, st)
  | some (pc, c) =>
    match locateLesson c mi si li with
    | none => (false, st)
    | some ((pm, ps, pl), ld) =>
      let ld1 := { ld with studentCodeTxt := some code }
      match ld.conceptInfo with
      | none => (true, updateAt st pc pm ps pl ld1)
      | some ci =>
        (true, updateAt st pc pm ps pl
          { ld1 with conceptInfo := some (saveCodeCi ci now) })

/-- Fast path of `save_detailed_lesson_plan`: first glob match (directory-name
prefixes) whose `concept_info.json` exists, with its position. -/
def fastPlanLoc (c : CourseDir) (mi si li : Nat) :
    Option ((Nat × Nat × Nat) × LessonDir) :=
  (findSomePos (fun m =>
      if strStartsWith m.dirName ("module_" ++ pad2 mi ++ "_") then
        findSomePos (fun sm =>
            if strStartsWith sm.dirName ("submodule_" ++ pad2 si ++ "_") then
              findSomePos (fun ld =>
                  if strStartsWith ld.dirName ("lesson_" ++ pad2 li ++ "_") &&
                      ld.conceptInfo.isSome
                  then some ld else none)
                sm.lessons
            else none)
          m.submodules
      else none)
    c.modules).map (fun q => ((q.1, q.2.1, q.2.2.1), q.2.2.2))

/-- Fallback path of `save_detailed_lesson_plan`: full metadata scan with no
`break` (a matching module whose subtree yields nothing does not stop it),
with the matched lesson's position. -/
def fallbackPlanLoc (c : CourseDir) (mi si li : Nat) :
    Option ((Nat × Nat × Nat) × LessonDir) :=
  (findSomePos (fun m =>
      if strStartsWith m.dirName "module_" then
        match m.sectionInfo with
        | some info =>
          if info.index == mi then
            findSomePos (fun sm =>
                if strStartsWith sm.dirName "submodule_" then
                  match sm.subsectionInfo with
                  | some sinfo =>
                    if sinfo.index == si then
                      findSomePos (fun ld =>
                          if strStartsWith ld.dirName "lesson_" then
                            match ld.conceptInfo with
                            | some ci => if ci.index == li then some ld else none
                            | none => none
                          else none)
                        sm.lessons
                    else none
                  | none => none
                else none)
              m.submodules
          else none
        | none => none
      else none)
    c.modules).map (fun q => ((q.1, q.2.1, q.2.2.1), q.2.2.2))

/-- The lesson `save_detailed_lesson_plan` writes to: fast path, then
fallback. -/
def planTarget (c : CourseDir) (mi si li : Nat) :
    Option ((Nat × Nat × Nat) × LessonDir) :=
  match fastPlanLoc c mi si li with
  | some r => some r
  | none => fallbackPlanLoc c mi si li

/-- `save_detailed_lesson_plan`: write `detailed_plan.txt` and update the
metadata with `completed=True`, `detailed_plan`, `completed_at`; `False` when
nothing is found (a glob over a missing course directory yields nothing). -/
def save_detailed_lesson_plan (st : List CourseDir) (course : String)
    (mi si li : Nat) (plan : String) (now : Nat) : Bool × List CourseDir :=
  match findCoursePos st course with
  | none => (false, st)
  | some (pc, c) =>
    match planTarget c mi si li with
    | none => (false, st)
    | some ((pm, ps, pl), ld) =>
      (true, updateAt st pc pm ps pl
        { ld with
          detailedPlanTxt := some plan
          conceptInfo := ld.conceptInfo.map (fun ci =>
            { ci with completed := true, detailed_plan := some plan,
                      completed_at := some (TimeStr.iso now) }) })

/-- `is_lesson_completed`: `concept_info.get("completed", False)` of the
located lesson, `False` when the lesson or its metadata is missing. -/
def is_lesson_completed (st : List CourseDir) (course : String) (mi si li : Nat) :
    Bool :=
  match get_lesson_directory st course mi si li with
  | none => false
  | some ld =>
    match ld.conceptInfo with
    | none => false
    | some ci => ci.completed

/-- `get_lesson_code`. -/
def get_lesson_code (st : List CourseDir) (course : String) (mi si li : Nat) :
    Option String :=
  match get_lesson_directory st course mi si li with
  | none => none
  | some ld => ld.studentCodeTxt

/-- `get_lesson_time_spent`: the `total_time_minutes` metadata value. -/
def get_lesson_time_spent (st : List CourseDir) (course : String) (mi si li : Nat) :
    Option Int :=
  match get_lesson_directory st course mi si li with
  | none => none
  | some ld =>
    match ld.conceptInfo with
    | none => none
    | some ci => ci.total_time_minutes

/-- Overwrite-or-create a named data file inside a lesson directory. -/
def upsertFile (files : List (String × String)) (nm content : String) :
    List (String × String) :=
  if files.any (fun p => p.1 == nm)
  then files.map (fun p => if p.1 == nm then (nm, content) else p)
  else files ++ [(nm, content)]

/-- The per-video transcript/summary files written by `save_youtube_videos`
(`if video.get('transcript'):` — written only when present and non-empty). -/
def writeVideoFiles (files0 : List (String × String)) (videos : List VideoRecord) :
    List (String × String) :=
  videos.enum.foldl (fun files p =>
    let files1 := match p.2.transcript with
      | some t =>
        if t ≠ "" then upsertFile files ("video_" ++ toString (p.1 + 1) ++ "_transcript.txt") t
        else files
      | none => files
    match p.2.summary with
    | some s =>
      if s ≠ "" then upsertFile files1 ("video_" ++ toString (p.1 + 1) ++ "_summary.txt") s
      else files1
    | none => files1) files0

/-- `save_youtube_videos`: write `youtube_videos.json` (replacing any prior
list), write per-video files, update the metadata counters; `False` on lookup
failure. -/
def save_youtube_videos (st : List CourseDir) (course : String) (mi si li : Nat)
    (videos : List VideoRecord) : Bool × List CourseDir :=
  match findCoursePos st course with
  | none => (false, st)
  | some (pc, c) =>
    match locateLesson c mi si li with
    | none => (false, st)
    | some ((pm, ps, pl), ld) =>
      let ld1 := { ld with
        youtubeVideosJson := some videos
        videoFiles := writeVideoFiles ld.videoFiles videos }
      let ld2 := match ld.conceptInfo with
        | some ci =>
          { ld1 with conceptInfo :=
                       some ({ ci with youtube_videos := some videos.length,
                                       youtube_videos_file := some "youtube_videos.json" }) }
        | none => ld1
      (true, updateAt st pc pm ps pl ld2)

/-- Insertion into a name-sorted list (`sorted(...)` over glob results). -/
def insertByName (nm : α → String) (a : α) : List α → List α
  | [] => [a]
  | b :: bs => if nm a ≤ nm b then a :: b :: bs else b :: insertByName nm a bs

/-- Name-sort of a directory listing, modelling Python `sorted`. -/
def sortByName (nm : α → String) : List α → List α
  | [] => []
  | a :: as => insertByName nm a (sortByName nm as)

/-- The lesson metadata records visited by the `get_course_progress` walk, in
walk order: sorted `module_*` children with a readable `section_info.json`,
inside them sorted `submodule_*` children with a readable
`subsection_info.json`, inside them sorted `lesson_*` children with a
readable `concept_info.json`. -/
def walkLessonInfos (c : CourseDir) : List ConceptInfo :=
  ((sortByName (fun m => m.dirName)
      (c.modules.filter (fun m => strStartsWith m.dirName "module_"))).filter
    (fun m => m.sectionInfo.isSome)).flatMap (fun m =>
    ((sortByName (fun sm => sm.dirName)
        (m.submodules.filter (fun sm => strStartsWith sm.dirName "submodule_"))).filter
      (fun sm => sm.subsectionInfo.isSome)).flatMap (fun sm =>
      (sortByName (fun ld => ld.dirName)
          (sm.lessons.filter (fun ld => strStartsWith ld.dirName "lesson_"))).filterMap
        (fun ld => ld.conceptInfo)))

/-- One `lessons[]` echo entry of the progress report. -/
structure LessonProgress where
  name : String
  index : Nat
  completed : Bool
  agenda : String
  time_spent_minutes : Int
deriving DecidableEq, Repr

/-- One `submodules[]` echo entry of the progress report. -/
structure SubmoduleProgress where
  name : String
  index : Nat
  lessons : List LessonProgress
deriving DecidableEq, Repr

/-- One `modules[]` echo entry of the progress report. -/
structure ModuleProgress where
  name : String
  index : Nat
  submodules : List SubmoduleProgress
deriving DecidableEq, Repr

/-- The dictionary returned by `get_course_progress` on success.  The Python
float `completed / total * 100` is carried exactly as a rational. -/
structure ProgressReport where
  course_name : String
  total_lessons : Nat
  completed_lessons : Nat
  total_time_minutes : Int
  completion_percentage : ℚ
  modules : List ModuleProgress
deriving DecidableEq, Repr

/-- Result of `get_course_progress`: the `{"error": ...}` dictionary or the
report. -/
inductive ProgressResult where
  | error (msg : String)
  | ok (r : ProgressReport)
deriving DecidableEq, Repr

/-- The nested `modules[].submodules[].lessons[]` echo built during the walk. -/
def walkReportModules (c : CourseDir) : List ModuleProgress :=
  (sortByName (fun m => m.dirName)
      (c.modules.filter (fun m => strStartsWith m.dirName "module_"))).filterMap
    (fun m => m.sectionInfo.map (fun info =>
      { name := info.name
        index := info.index
        submodules := (sortByName (fun sm => sm.dirName)
            (m.submodules.filter (fun sm => strStartsWith sm.dirName "submodule_"))).filterMap
          (fun sm => sm.subsectionInfo.map (fun sinfo =>
            { name := sinfo.name
              index := sinfo.index
              lessons := (sortByName (fun ld => ld.dirName)
                  (sm.lessons.filter (fun ld => strStartsWith ld.dirName "lesson_"))).filterMap
                (fun ld => ld.conceptInfo.map (fun ci =>
                  { name := ci.name
                    index := ci.index
                    completed := ci.completed
                    agenda := ci.agenda
                    time_spent_minutes := ci.total_time_minutes.getD 0 })) })) }))

/-- `get_course_progress`: error dictionary when the course directory is
absent, otherwise totals accumulated over the walk plus the echo tree. -/
def get_course_progress (st : List CourseDir) (course : String) : ProgressResult :=
  match findCoursePos st course with
  | none => .error "Course not found"
  | some (_, c) =>
    let walked := walkLessonInfos c
    let total := walked.length
    let completed := walked.countP (fun ci => ci.completed)
    .ok
      { course_name := course
        total_lessons := total
        completed_lessons := completed
        total_time_minutes := (walked.map (fun ci => ci.total_time_minutes.getD 0)).sum
        completion_percentage :=
          if total > 0 then ((completed : ℚ) / (total : ℚ)) * 100 else 0
        modules := walkReportModules c }

/-- Modelled from the spec: the claim-side description of the lessons counted
by progress aggregation — lessons whose metadata file is readable and all of
whose ancestors have readable metadata (nodes with missing metadata are
skipped), in tree order. -/
def readableLessons (c : CourseDir) : List ConceptInfo :=
  (c.modules.filter (fun m =>
      strStartsWith m.dirName "module_" && m.sectionInfo.isSome)).flatMap (fun m =>
    (m.submodules.filter (fun sm =>
        strStartsWith sm.dirName "submodule_" && sm.subsectionInfo.isSome)).flatMap (fun sm =>
      (sm.lessons.filter (fun ld => strStartsWith ld.dirName "lesson_")).filterMap
        (fun ld => ld.conceptInfo)))

/-- Every lesson directory anywhere in the store. -/
def allLessons (st : List CourseDir) : List LessonDir :=
  st.flatMap (fun c => c.modules.flatMap (fun m => m.submodules.flatMap (fun sm => sm.lessons)))

/-- A filesystem path as a component list (`pathlib.Path` relative to root). -/
abbrev PPath := List String

/-- `pathlib` join: joining an empty string adds no component, so
`base / "" == base`. -/
def pjoin (p : PPath) (seg : String) : PPath :=
  if seg = "" then p else p ++ [seg]

/-- The directory `self.base_dir / self._safe_name(course_name)`. -/
def courseDirPath (base : PPath) (name : String) : PPath :=
  pjoin base (safe_name name)

/-- `shutil.rmtree` on a set of existing paths: removes the path and
everything below it. -/
def rmtreePaths (fs : List PPath) (p : PPath) : List PPath :=
  fs.filter (fun q => !(p.isPrefixOf q))

/-- Path-level model of the prologue of `create_course_structure` (lines
13–21): resolve the course directory, delete it recursively if it exists,
then `mkdir` it.  Returns the resulting path set. -/
def createProloguePaths (fs : List PPath) (base : PPath) (name : String) :
    List PPath :=
  let cd := courseDirPath base name
  let fs1 := if fs.contains cd then rmtreePaths fs cd else fs
  fs1 ++ [cd]


/-! ### Generic list lemmas used throughout the development -/

theorem findPos_eq_some {p : α → Bool} :
    ∀ {l : List α} {i : Nat} {a : α},
      findPos p l = some (i, a) → a ∈ l ∧ p a = true := by
  intro l
  induction l with
  | nil => intro i a h; cases h
  | cons b bs ih =>
    intro i a h
    cases hb : p b with
    | true =>
      simp [findPos, hb] at h
      rcases h with ⟨hi, ha⟩
      subst ha
      exact ⟨List.mem_cons_self _ _, hb⟩
    | false =>
      simp [findPos, hb] at h
      rcases h with ⟨j, hrec, hi⟩
      have := ih hrec
      exact ⟨List.mem_cons_of_mem _ this.1, this.2⟩

theorem findPos_listModify {p : α → Bool} (f : α → α) :
    ∀ {l : List α} {i : Nat} {a : α},
      findPos p l = some (i, a) → p (f a) = true →
      findPos p (listModify f i l) = some (i, f a) := by
  intro l
  induction l with
  | nil => intro i a h; cases h
  | cons b bs ih =>
    intro i a h hf
    cases hb : p b with
    | true =>
      simp [findPos, hb] at h
      rcases h with ⟨hi, ha⟩
      subst hi; subst ha
      simp [listModify, findPos, hf]
    | false =>
      simp [findPos, hb] at h
      rcases h with ⟨j, hrec, hi⟩
      subst hi
      simp [listModify, findPos, hb, ih hrec hf]

theorem listModify_listModify (f g : α → α) :
    ∀ (i : Nat) (l : List α),
      listModify f i (listModify g i l) = listModify (fun a => f (g a)) i l := by
  intro i l
  induction l generalizing i with
  | nil => cases i <;> rfl
  | cons b bs ih => cases i with
    | zero => rfl
    | succ n => simp [listModify, ih]

theorem findSomePos_eq_some {f : α → Option β} :
    ∀ {l : List α} {i : Nat} {b : β},
      findSomePos f l = some (i, b) → ∃ a ∈ l, f a = some b := by
  intro l
  induction l with
  | nil => intro i b h; cases h
  | cons c cs ih =>
    intro i b h
    cases hc : f c with
    | some d =>
      simp [findSomePos, hc] at h
      exact ⟨c, List.mem_cons_self _ _, by rw [hc, h.2]⟩
    | none =>
      simp [findSomePos, hc] at h
      rcases h with ⟨j, hrec, hi⟩
      rcases ih hrec with ⟨a, ha, hfa⟩
      exact ⟨a, List.mem_cons_of_mem _ ha, hfa⟩

/-! ### Stability of lesson resolution under in-place lesson updates -/

theorem matchSec_submodules (m : ModuleDir) (x : List SubmoduleDir) (mi : Nat) :
    matchSec { m with submodules := x } mi = matchSec m mi := rfl

theorem matchSub_lessons (sm : SubmoduleDir) (x : List LessonDir) (si : Nat) :
    matchSub { sm with lessons := x } si = matchSub sm si := rfl

theorem locateLesson_inv {c : CourseDir} {mi si li pm ps pl : Nat} {ld : LessonDir}
    (h : locateLesson c mi si li = some ((pm, ps, pl), ld)) :
    ∃ m sm, findPos (fun m₀ => matchSec m₀ mi) c.modules = some (pm, m) ∧
      findPos (fun sm₀ => matchSub sm₀ si) m.submodules = some (ps, sm) ∧
      findPos (fun ld₀ => matchLes ld₀ li) sm.lessons = some (pl, ld) := by
  unfold locateLesson at h
  simp only [Option.bind_eq_some, Option.map_eq_some'] at h
  rcases h with ⟨⟨pm', m⟩, h1, ⟨ps', sm⟩, h2, ⟨pl', ld₀⟩, h3, heq⟩
  injection heq with heq1 heq2
  injection heq1 with e1 heq1
  injection heq1 with e2 e3
  subst e1; subst e2; subst e3; subst heq2
  exact ⟨m, sm, h1, h2, h3⟩

theorem matchLes_of_locate {c : CourseDir} {mi si li pm ps pl : Nat} {ld : LessonDir}
    (h : locateLesson c mi si li = some ((pm, ps, pl), ld)) :
    matchLes ld li = true := by
  rcases locateLesson_inv h with ⟨m, sm, _, _, h3⟩
  exact (findPos_eq_some h3).2

theorem locateLesson_setLessonAt {c : CourseDir} {mi si li pm ps pl : Nat}
    {ld : LessonDir} (h : locateLesson c mi si li = some ((pm, ps, pl), ld))
    {ld' : LessonDir} (hm : matchLes ld' li = true) :
    locateLesson (setLessonAt c pm ps pl ld') mi si li = some ((pm, ps, pl), ld') := by
  rcases locateLesson_inv h with ⟨m, sm, h1, h2, h3⟩
  have hsec : matchSec m mi = true := (findPos_eq_some h1).2
  have hsub : matchSub sm si = true := (findPos_eq_some h2).2
  have e3 : findPos (fun ld₀ => matchLes ld₀ li)
      (listModify (fun _ => ld') pl sm.lessons) = some (pl, ld') :=
    findPos_listModify _ h3 hm
  have e2 : findPos (fun sm₀ => matchSub sm₀ si)
      (listModify (subUpdater pl ld') ps m.submodules) =
      some (ps, subUpdater pl ld' sm) :=
    findPos_listModify _ h2 (by rw [show matchSub (subUpdater pl ld' sm) si = matchSub sm si from rfl]; exact hsub)
  have e1 : findPos (fun m₀ => matchSec m₀ mi)
      (listModify (modUpdater ps pl ld') pm c.modules) =
      some (pm, modUpdater ps pl ld' m) :=
    findPos_listModify _ h1 (by rw [show matchSec (modUpdater ps pl ld' m) mi = matchSec m mi from rfl]; exact hsec)
  unfold locateLesson setLessonAt
  dsimp only
  rw [e1]
  dsimp only [Option.some_bind, modUpdater]
  rw [e2]
  dsimp only [Option.some_bind, subUpdater]
  rw [e3]
  rfl

theorem findCoursePos_updateAt {st : List CourseDir} {course : String}
    {pc : Nat} {c : CourseDir} (h : findCoursePos st course = some (pc, c))
    (pm ps pl : Nat) (ld' : LessonDir) :
    findCoursePos (updateAt st pc pm ps pl ld') course =
      some (pc, setLessonAt c pm ps pl ld') := by
  unfold findCoursePos updateAt
  exact findPos_listModify _ h ((findPos_eq_some h).2)

theorem get_lesson_directory_updateAt {st : List CourseDir} {course : String}
    {pc pm ps pl mi si li : Nat} {c : CourseDir} {ld ld' : LessonDir}
    (h1 : findCoursePos st course = some (pc, c))
    (h2 : locateLesson c mi si li = some ((pm, ps, pl), ld))
    (hm : matchLes ld' li = true) :
    get_lesson_directory (updateAt st pc pm ps pl ld') course mi si li = some ld' := by
  unfold get_lesson_directory
  simp only [findCoursePos_updateAt h1, locateLesson_setLessonAt h2 hm,
    Option.map_some']

theorem subUpdater_subUpdater (pl : Nat) (x y : LessonDir) (sm : SubmoduleDir) :
    subUpdater pl y (subUpdater pl x sm) = subUpdater pl y sm := by
  unfold subUpdater
  dsimp only
  rw [listModify_listModify]

theorem modUpdater_modUpdater (ps pl : Nat) (x y : LessonDir) (m : ModuleDir) :
    modUpdater ps pl y (modUpdater ps pl x m) = modUpdater ps pl y m := by
  unfold modUpdater
  dsimp only
  rw [listModify_listModify]
  have h : (fun a => subUpdater pl y (subUpdater pl x a)) = subUpdater pl y :=
    funext (subUpdater_subUpdater pl x y)
  rw [h]

theorem setLessonAt_setLessonAt (c : CourseDir) (pm ps pl : Nat) (x y : LessonDir) :
    setLessonAt (setLessonAt c pm ps pl x) pm ps pl y = setLessonAt c pm ps pl y := by
  unfold setLessonAt
  dsimp only
  rw [listModify_listModify]
  have h : (fun a => modUpdater ps pl y (modUpdater ps pl x a)) = modUpdater ps pl y :=
    funext (modUpdater_modUpdater ps pl x y)
  rw [h]

theorem updateAt_updateAt (st : List CourseDir) (pc pm ps pl : Nat) (x y : LessonDir) :
    updateAt (updateAt st pc pm ps pl x) pc pm ps pl y = updateAt st pc pm ps pl y := by
  unfold updateAt
  rw [listModify_listModify]
  have h : (fun c => setLessonAt (setLessonAt c pm ps pl x) pm ps pl y) =
      (fun c => setLessonAt c pm ps pl y) :=
    funext (fun c => setLessonAt_setLessonAt c pm ps pl x y)
  rw [h]

/-! ### `create_course_structure` as delete-then-write -/

theorem create_eq_filter (st : List CourseDir) (now : Nat) (name : String)
    (doc : CourseDoc) :
    create_course_structure st now name doc =
      st.filter (fun c => c.dirName != safe_name name) ++ [buildCourse now name doc] := by
  unfold create_course_structure
  cases h : st.any (fun c => c.dirName == safe_name name) with
  | true => simp [h]
  | false =>
    simp only [h, Bool.false_eq_true, if_false, List.append_cancel_right_eq]
    have hall := List.any_eq_false.mp h
    rw [List.filter_eq_self.mpr]
    intro c hc
    simpa using hall c hc

theorem findPos_append_last (p : α → Bool) (b : α) (hb : p b = true) :
    ∀ l : List α, (∀ a ∈ l, p a = false) →
      findPos p (l ++ [b]) = some (l.length, b) := by
  intro l
  induction l with
  | nil => intro _; simp [findPos, hb]
  | cons x xs ih =>
    intro hall
    have hx := hall x (List.mem_cons_self _ _)
    simp [findPos, hx, ih (fun a ha => hall a (List.mem_cons_of_mem _ ha))]

theorem findCourse_create (st : List CourseDir) (now : Nat) (name : String)
    (doc : CourseDoc) :
    findCourse (create_course_structure st now name doc) name =
      some (buildCourse now name doc) := by
  rw [create_eq_filter]
  unfold findCourse findCoursePos
  rw [findPos_append_last _ _ (by simp [buildCourse])]
  · rfl
  · intro a ha
    have := (List.mem_filter.mp ha).2
    simpa [bne] using this

/-! ### Sample materialized store used by the witnesses -/

def sampleDoc : CourseDoc :=
  ⟨[⟨"Arrays", [⟨"Basics", [⟨"Indexing", "idx agenda"⟩, ⟨"Traversal", "trav agenda"⟩]⟩]⟩]⟩

def sampleStore : List CourseDir := create_course_structure [] 0 "Data Structures" sampleDoc

def sampleCourse : CourseDir := buildCourse 0 "Data Structures" sampleDoc

def sampleLesson : LessonDir := buildLesson 0 "Arrays" "Basics" 1 ⟨"Indexing", "idx agenda"⟩

def sampleLesson2 : LessonDir := buildLesson 0 "Arrays" "Basics" 2 ⟨"Traversal", "trav agenda"⟩

def sampleCi : ConceptInfo :=
  { name := "Indexing"
    agenda := "idx agenda"
    index := 1
    subsection_name := "Basics"
    section_name := "Arrays"
    created_at := TimeStr.iso 0
    completed := false
    detailed_plan := none
    completed_at := none
    code_file := none
    first_code_update := none
    last_code_update := none
    total_time_minutes := none
    youtube_videos := none
    youtube_videos_file := none }

/-! ### Claim theorems -/

/-- C7: success-returning mutation operations return `False` (state unchanged)
rather than raising on lookup failure; `is_lesson_completed` returns `False`
when the lesson directory or its metadata cannot be located; and
`get_course_progress` on an absent course directory returns the error
dictionary.  (I/O exceptions have no counterpart in this total embedding; the
lookup-failure and absence cases are the ones stated.) -/
theorem store_ops_fail_soft (st : List CourseDir) (course : String)
    (mi si li t : Nat) (code plan : String) (videos : List VideoRecord) :
    (get_lesson_directory st course mi si li = none →
      mark_lesson_completed st course mi si li t = (false, st) ∧
      save_lesson_code st course mi si li code t = (false, st) ∧
      save_youtube_videos st course mi si li videos = (false, st) ∧
      is_lesson_completed st course mi si li = false) ∧
    (findCourse st course = none →
      save_detailed_lesson_plan st course mi si li plan t = (false, st) ∧
      get_course_progress st course = ProgressResult.error "Course not found") ∧
    (∀ pc c, findCoursePos st course = some (pc, c) →
      planTarget c mi si li = none →
      save_detailed_lesson_plan st course mi si li plan t = (false, st)) := by
  refine ⟨?_, ?_, ?_⟩
  · intro h
    rcases hfc : findCoursePos st course with _ | ⟨pc, c⟩
    · exact ⟨by simp [mark_lesson_completed, hfc], by simp [save_lesson_code, hfc],
        by simp [save_youtube_videos, hfc], by simp [is_lesson_completed, h]⟩
    · have hloc : locateLesson c mi si li = none := by
        unfold get_lesson_directory at h
        rw [hfc] at h
        simpa using h
      exact ⟨by simp [mark_lesson_completed, hfc, hloc],
        by simp [save_lesson_code, hfc, hloc],
        by simp [save_youtube_videos, hfc, hloc],
        by simp [is_lesson_completed, h]⟩
  · intro h
    have hfc : findCoursePos st course = none := by
      unfold findCourse at h
      exact Option.map_eq_none'.mp h
    exact ⟨by simp [save_detailed_lesson_plan, hfc],
      by simp [get_course_progress, hfc]⟩
  · intro pc c hfc hpt
    simp [save_detailed_lesson_plan, hfc, hpt]

/-- C7 witness: on the empty store, every lookup fails and every operation
fail-softs. -/
theorem store_ops_fail_soft_witness :
    get_lesson_directory [] "x" 1 1 1 = none ∧
    findCourse [] "x" = none ∧
    mark_lesson_completed [] "x" 1 1 1 0 = (false, []) ∧
    save_lesson_code [] "x" 1 1 1 "c" 0 = (false, []) ∧
    save_youtube_videos [] "x" 1 1 1 [] = (false, []) ∧
    is_lesson_completed [] "x" 1 1 1 = false ∧
    save_detailed_lesson_plan [] "x" 1 1 1 "p" 0 = (false, []) ∧
    get_course_progress [] "x" = ProgressResult.error "Course not found" := by
  have h := store_ops_fail_soft [] "x" 1 1 1 0 "c" "p" []
  have h1 := h.1 rfl
  have h2 := h.2.1 rfl
  exact ⟨rfl, rfl, h1.1, h1.2.1, h1.2.2.1, h1.2.2.2,
    by simpa using (store_ops_fail_soft [] "x" 1 1 1 0 "c" "p" []).2.1 rfl |>.1, h2.2⟩

/-- The lesson directory as rewritten by `mark_lesson_completed`: only the
`completed` and `completed_at` metadata fields change; `name`, `agenda`,
`index`, timestamps, saved code, the detailed plan and every data file are
carried over unchanged. -/
def markedLesson (ld : LessonDir) (ci : ConceptInfo) (t : Nat) : LessonDir :=
  { ld with
    conceptInfo := some { ci with completed := true
                                  completed_at := some (TimeStr.iso t) } }

/-- C8: for a located lesson, `mark_lesson_completed` succeeds, sets
`completed` and `completed_at` and leaves every other metadata field and every
data file of the lesson unchanged (the resulting lesson directory is exactly
`markedLesson ld ci t₁`, the old one with only those two fields updated);
`is_lesson_completed` is true afterwards; and a second call yields the very
same store as a single call at the second time (only `completed_at` advances),
with `is_lesson_completed` true after each call. -/
theorem mark_completed_frame_idempotent (st : List CourseDir) (course : String)
    (mi si li t₁ t₂ pc pm ps pl : Nat) (c : CourseDir) (ld : LessonDir)
    (ci : ConceptInfo)
    (hc : findCoursePos st course = some (pc, c))
    (hl : locateLesson c mi si li = some ((pm, ps, pl), ld))
    (hci : ld.conceptInfo = some ci) :
    (mark_lesson_completed st course mi si li t₁).1 = true ∧
    get_lesson_directory (mark_lesson_completed st course mi si li t₁).2 course mi si li =
      some (markedLesson ld ci t₁) ∧
    is_lesson_completed (mark_lesson_completed st course mi si li t₁).2 course mi si li =
      true ∧
    mark_lesson_completed (mark_lesson_completed st course mi si li t₁).2 course mi si li t₂ =
      mark_lesson_completed st course mi si li t₂ ∧
    is_lesson_completed
      (mark_lesson_completed (mark_lesson_completed st course mi si li t₁).2
        course mi si li t₂).2 course mi si li = true := by
  have hml : matchLes ld li = true := matchLes_of_locate hl
  have hm1 : matchLes (markedLesson ld ci t₁) li = true := by
    simpa [matchLes, markedLesson, hci] using hml
  have hm2 : matchLes (markedLesson ld ci t₂) li = true := by
    simpa [matchLes, markedLesson, hci] using hml
  have hciM1 : (markedLesson ld ci t₁).conceptInfo =
      some { ci with completed := true
                     completed_at := some (TimeStr.iso t₁) } := rfl
  have hciM2 : (markedLesson ld ci t₂).conceptInfo =
      some { ci with completed := true
                     completed_at := some (TimeStr.iso t₂) } := rfl
  have hmark1 : mark_lesson_completed st course mi si li t₁ =
      (true, updateAt st pc pm ps pl (markedLesson ld ci t₁)) := by
    unfold mark_lesson_completed markedLesson
    simp [hc, hl, hci]
  have hmark2 : mark_lesson_completed st course mi si li t₂ =
      (true, updateAt st pc pm ps pl (markedLesson ld ci t₂)) := by
    unfold mark_lesson_completed markedLesson
    simp [hc, hl, hci]
  have hdir1 := get_lesson_directory_updateAt hc hl hm1
  have hdir2 := get_lesson_directory_updateAt hc hl hm2
  have hmarkAgain : mark_lesson_completed (mark_lesson_completed st course mi si li t₁).2
      course mi si li t₂ = mark_lesson_completed st course mi si li t₂ := by
    rw [hmark1, hmark2]
    dsimp only
    unfold mark_lesson_completed
    simp only [findCoursePos_updateAt hc, locateLesson_setLessonAt hl hm1, hciM1]
    rw [updateAt_updateAt]
    rfl
  refine ⟨by rw [hmark1], ?_, ?_, hmarkAgain, ?_⟩
  · rw [hmark1]
    dsimp only
    exact hdir1
  · unfold is_lesson_completed
    rw [hmark1]
    dsimp only
    simp [hdir1, hciM1]
  · unfold is_lesson_completed
    rw [hmarkAgain, hmark2]
    dsimp only
    simp [hdir2, hciM2]

/-- C8 witness: the frame/idempotence theorem applied to the freshly
materialized sample course at coordinate (1,1,1), times 10 and 20. -/
theorem mark_completed_frame_idempotent_witness :
    (findCoursePos sampleStore "Data Structures" = some (0, sampleCourse) ∧
     locateLesson sampleCourse 1 1 1 = some ((0, 0, 0), sampleLesson) ∧
     sampleLesson.conceptInfo = some sampleCi) ∧
    ((mark_lesson_completed sampleStore "Data Structures" 1 1 1 10).1 = true ∧
     get_lesson_directory (mark_lesson_completed sampleStore "Data Structures" 1 1 1 10).2
       "Data Structures" 1 1 1 = some (markedLesson sampleLesson sampleCi 10) ∧
     is_lesson_completed (mark_lesson_completed sampleStore "Data Structures" 1 1 1 10).2
       "Data Structures" 1 1 1 = true ∧
     mark_lesson_completed (mark_lesson_completed sampleStore "Data Structures" 1 1 1 10).2
       "Data Structures" 1 1 1 20 =
       mark_lesson_completed sampleStore "Data Structures" 1 1 1 20 ∧
     is_lesson_completed
       (mark_lesson_completed (mark_lesson_completed sampleStore "Data Structures" 1 1 1 10).2
         "Data Structures" 1 1 1 20).2 "Data Structures" 1 1 1 = true) :=
  ⟨⟨by decide, by decide, by decide⟩,
   mark_completed_frame_idempotent sampleStore "Data Structures" 1 1 1 10 20 0 0 0 0
     sampleCourse sampleLesson sampleCi (by decide) (by decide) (by decide)⟩

/-- The lesson directory as rewritten by a successful
`save_detailed_lesson_plan`: the plan file is written and only the
`completed`, `detailed_plan` and `completed_at` metadata fields change. -/
def plannedLesson (ld : LessonDir) (ci : ConceptInfo) (plan : String) (t : Nat) :
    LessonDir :=
  { ld with
    detailedPlanTxt := some plan
    conceptInfo := some { ci with completed := true
                                  detailed_plan := some plan
                                  completed_at := some (TimeStr.iso t) } }

/-- C4: when the lesson `save_detailed_lesson_plan` writes to (its fast-path /
fallback target) is the lesson the metadata locator resolves at the same
coordinate, a successful save writes the plan file and sets
`completed = true`, `detailed_plan = plan` and `completed_at = now` on that
lesson's metadata, so `is_lesson_completed` is true immediately afterwards
with no learner action. -/
theorem save_plan_marks_completed (st : List CourseDir) (course : String)
    (mi si li t pc pm ps pl : Nat) (plan : String) (c : CourseDir)
    (ld : LessonDir) (ci : ConceptInfo)
    (hc : findCoursePos st course = some (pc, c))
    (hpt : planTarget c mi si li = some ((pm, ps, pl), ld))
    (hl : locateLesson c mi si li = some ((pm, ps, pl), ld))
    (hci : ld.conceptInfo = some ci) :
    save_detailed_lesson_plan st course mi si li plan t =
      (true, updateAt st pc pm ps pl (plannedLesson ld ci plan t)) ∧
    get_lesson_directory (save_detailed_lesson_plan st course mi si li plan t).2
      course mi si li = some (plannedLesson ld ci plan t) ∧
    is_lesson_completed (save_detailed_lesson_plan st course mi si li plan t).2
      course mi si li = true := by
  have hm : matchLes (plannedLesson ld ci plan t) li = true := by
    simpa [matchLes, plannedLesson, hci] using matchLes_of_locate hl
  have hciP : (plannedLesson ld ci plan t).conceptInfo =
      some { ci with completed := true
                     detailed_plan := some plan
                     completed_at := some (TimeStr.iso t) } := rfl
  have hsave : save_detailed_lesson_plan st course mi si li plan t =
      (true, updateAt st pc pm ps pl (plannedLesson ld ci plan t)) := by
    unfold save_detailed_lesson_plan plannedLesson
    simp [hc, hpt, hci]
  have hdir := get_lesson_directory_updateAt hc hl hm
  refine ⟨hsave, ?_, ?_⟩
  · rw [hsave]
    dsimp only
    exact hdir
  · unfold is_lesson_completed
    rw [hsave]
    dsimp only
    simp [hdir, hciP]

/-- C4 witness: saving a plan on the sample course's lesson (1,1,1) at time 5
marks that lesson completed. -/
theorem save_plan_marks_completed_witness :
    (findCoursePos sampleStore "Data Structures" = some (0, sampleCourse) ∧
     planTarget sampleCourse 1 1 1 = some ((0, 0, 0), sampleLesson) ∧
     locateLesson sampleCourse 1 1 1 = some ((0, 0, 0), sampleLesson) ∧
     sampleLesson.conceptInfo = some sampleCi) ∧
    (save_detailed_lesson_plan sampleStore "Data Structures" 1 1 1 "the plan" 5 =
      (true, updateAt sampleStore 0 0 0 0 (plannedLesson sampleLesson sampleCi "the plan" 5)) ∧
     get_lesson_directory
       (save_detailed_lesson_plan sampleStore "Data Structures" 1 1 1 "the plan" 5).2
       "Data Structures" 1 1 1 = some (plannedLesson sampleLesson sampleCi "the plan" 5) ∧
     is_lesson_completed
       (save_detailed_lesson_plan sampleStore "Data Structures" 1 1 1 "the plan" 5).2
       "Data Structures" 1 1 1 = true) :=
  ⟨⟨by decide, by decide, by decide, by decide⟩,
   save_plan_marks_completed sampleStore "Data Structures" 1 1 1 5 0 0 0 0 "the plan"
     sampleCourse sampleLesson sampleCi (by decide) (by decide) (by decide) (by decide)⟩

theorem saveCodeCi_index (ci : ConceptInfo) (t : Nat) :
    (saveCodeCi ci t).index = ci.index := by
  unfold saveCodeCi
  cases h : ci.first_code_update.isNone <;> simp [h] <;> (repeat' split) <;> rfl

theorem tdiv_sub_cast (a b : Nat) (h : a ≤ b) :
    Int.tdiv ((b : Int) - (a : Int)) 60 = (((b - a) / 60 : Nat) : Int) := by
  rw [← Int.ofNat_sub h]
  rfl

/-- C5: on a lesson with no prior code (no `first_code_update`), saving code
at `t₁` then `t₂` leaves `total_time_minutes = (t₂ - t₁) / 60` (whole
minutes), and a third save at `t₃` recomputes `(t₃ - t₁) / 60` from the
original first timestamp, not from `t₂`; when the stored `first_code_update`
is malformed, the save still succeeds and `total_time_minutes` keeps its
previous value. -/
theorem save_code_time_accounting (st : List CourseDir) (course : String)
    (mi si li pc pm ps pl : Nat) (c : CourseDir) (ld : LessonDir)
    (ci : ConceptInfo) (code₁ code₂ code₃ : String) (t₁ t₂ t₃ : Nat)
    (hc : findCoursePos st course = some (pc, c))
    (hl : locateLesson c mi si li = some ((pm, ps, pl), ld))
    (hci : ld.conceptInfo = some ci) :
    (ci.first_code_update = none → t₁ < t₂ → t₂ < t₃ →
      (save_lesson_code st course mi si li code₁ t₁).1 = true ∧
      (save_lesson_code (save_lesson_code st course mi si li code₁ t₁).2
        course mi si li code₂ t₂).1 = true ∧
      get_lesson_time_spent
        (save_lesson_code (save_lesson_code st course mi si li code₁ t₁).2
          course mi si li code₂ t₂).2 course mi si li =
        some (((t₂ - t₁) / 60 : Nat) : Int) ∧
      get_lesson_time_spent
        (save_lesson_code
          (save_lesson_code (save_lesson_code st course mi si li code₁ t₁).2
            course mi si li code₂ t₂).2 course mi si li code₃ t₃).2 course mi si li =
        some (((t₃ - t₁) / 60 : Nat) : Int)) ∧
    (∀ s, ci.first_code_update = some (TimeStr.bad s) →
      (save_lesson_code st course mi si li code₁ t₁).1 = true ∧
      get_lesson_time_spent (save_lesson_code st course mi si li code₁ t₁).2
        course mi si li = ci.total_time_minutes) := by
  have hml : matchLes ld li = true := matchLes_of_locate hl
  constructor
  · intro hfirst h12 h23
    have hA : saveCodeCi ci t₁ =
        { ci with first_code_update := some (TimeStr.iso t₁)
                  code_file := some "student_code.txt"
                  last_code_update := some (TimeStr.iso t₁)
                  total_time_minutes := some (Int.tdiv ((t₁ : Int) - (t₁ : Int)) 60) } := by
      unfold saveCodeCi
      simp [hfirst, TimeStr.parse?]
    have hsave1 : save_lesson_code st course mi si li code₁ t₁ =
        (true, updateAt st pc pm ps pl
          ({ ld with studentCodeTxt := some code₁, conceptInfo := some (saveCodeCi ci t₁) })) := by
      unfold save_lesson_code
      simp [hc, hl, hci]
    set ldA : LessonDir :=
      { ld with studentCodeTxt := some code₁, conceptInfo := some (saveCodeCi ci t₁) } with hldA
    have hmA : matchLes ldA li = true := by
      simp only [hldA, matchLes, saveCodeCi_index]
      simpa [matchLes, hci] using hml
    have hcA : findCoursePos (updateAt st pc pm ps pl ldA) course =
        some (pc, setLessonAt c pm ps pl ldA) := findCoursePos_updateAt hc pm ps pl ldA
    have hlA : locateLesson (setLessonAt c pm ps pl ldA) mi si li =
        some ((pm, ps, pl), ldA) := locateLesson_setLessonAt hl hmA
    have hB : saveCodeCi (saveCodeCi ci t₁) t₂ =
        { ci with first_code_update := some (TimeStr.iso t₁)
                  code_file := some "student_code.txt"
                  last_code_update := some (TimeStr.iso t₂)
                  total_time_minutes := some (Int.tdiv ((t₂ : Int) - (t₁ : Int)) 60) } := by
      rw [hA]
      unfold saveCodeCi
      simp [TimeStr.parse?]
    have hsave2 : save_lesson_code (save_lesson_code st course mi si li code₁ t₁).2
        course mi si li code₂ t₂ =
        (true, updateAt st pc pm ps pl
          ({ ld with studentCodeTxt := some code₂,
                     conceptInfo := some (saveCodeCi (saveCodeCi ci t₁) t₂) })) := by
      rw [hsave1]
      dsimp only
      unfold save_lesson_code
      simp only [hcA, hlA, Option.some_bind]
      rw [updateAt_updateAt]
    set ldB : LessonDir :=
      { ld with studentCodeTxt := some code₂,
                conceptInfo := some (saveCodeCi (saveCodeCi ci t₁) t₂) } with hldB
    have hmB : matchLes ldB li = true := by
      simp only [hldB, matchLes, saveCodeCi_index]
      simpa [matchLes, hci] using hml
    have hcB : findCoursePos (updateAt st pc pm ps pl ldB) course =
        some (pc, setLessonAt c pm ps pl ldB) := findCoursePos_updateAt hc pm ps pl ldB
    have hlB : locateLesson (setLessonAt c pm ps pl ldB) mi si li =
        some ((pm, ps, pl), ldB) := locateLesson_setLessonAt hl hmB
    have hC : saveCodeCi (saveCodeCi (saveCodeCi ci t₁) t₂) t₃ =
        { ci with first_code_update := some (TimeStr.iso t₁)
                  code_file := some "student_code.txt"
                  last_code_update := some (TimeStr.iso t₃)
                  total_time_minutes := some (Int.tdiv ((t₃ : Int) - (t₁ : Int)) 60) } := by
      rw [hB]
      unfold saveCodeCi
      simp [TimeStr.parse?]
    have hsave3 : save_lesson_code
        (save_lesson_code (save_lesson_code st course mi si li code₁ t₁).2
          course mi si li code₂ t₂).2 course mi si li code₃ t₃ =
        (true, updateAt st pc pm ps pl
          ({ ld with studentCodeTxt := some code₃,
                     conceptInfo := some (saveCodeCi (saveCodeCi (saveCodeCi ci t₁) t₂) t₃) })) := by
      rw [hsave2]
      dsimp only
      unfold save_lesson_code
      simp only [hcB, hlB, Option.some_bind]
      rw [updateAt_updateAt]
    refine ⟨by rw [hsave1], by rw [hsave2], ?_, ?_⟩
    · rw [hsave2]
      dsimp only
      unfold get_lesson_time_spent
      rw [get_lesson_directory_updateAt hc hl hmB]
      simp only [hldB, hB]
      rw [tdiv_sub_cast t₁ t₂ (Nat.le_of_lt h12)]
    · set ldC : LessonDir :=
        { ld with studentCodeTxt := some code₃,
                  conceptInfo := some (saveCodeCi (saveCodeCi (saveCodeCi ci t₁) t₂) t₃) } with hldC
      have hmC : matchLes ldC li = true := by
        simp only [hldC, matchLes, saveCodeCi_index]
        simpa [matchLes, hci] using hml
      rw [hsave3]
      dsimp only
      unfold get_lesson_time_spent
      rw [get_lesson_directory_updateAt hc hl hmC]
      simp only [hldC, hC]
      rw [tdiv_sub_cast t₁ t₃ (Nat.le_of_lt (Nat.lt_trans h12 h23))]
  · intro s hbad
    have hAbad : saveCodeCi ci t₁ =
        { ci with code_file := some "student_code.txt"
                  last_code_update := some (TimeStr.iso t₁) } := by
      unfold saveCodeCi
      simp [hbad, TimeStr.parse?]
    have hsave1 : save_lesson_code st course mi si li code₁ t₁ =
        (true, updateAt st pc pm ps pl
          ({ ld with studentCodeTxt := some code₁, conceptInfo := some (saveCodeCi ci t₁) })) := by
      unfold save_lesson_code
      simp [hc, hl, hci]
    have hm1 : matchLes ({ ld with studentCodeTxt := some code₁, conceptInfo := some (saveCodeCi ci t₁) }) li = true := by
      simp only [matchLes, saveCodeCi_index]
      simpa [matchLes, hci] using hml
    refine ⟨by rw [hsave1], ?_⟩
    rw [hsave1]
    dsimp only
    unfold get_lesson_time_spent
    rw [get_lesson_directory_updateAt hc hl hm1]
    simp only [hAbad]

/-- C5 witness: code saves on the sample course's lesson (1,1,1) at times
100, 260 and 400 seconds leave 2 whole minutes after the second save and 5
whole minutes after the third (recomputed from the first save, not the
second). -/
theorem save_code_time_accounting_witness :
    (findCoursePos sampleStore "Data Structures" = some (0, sampleCourse) ∧
     locateLesson sampleCourse 1 1 1 = some ((0, 0, 0), sampleLesson) ∧
     sampleLesson.conceptInfo = some sampleCi ∧
     sampleCi.first_code_update = none ∧ 100 < 260 ∧ 260 < 400) ∧
    ((save_lesson_code sampleStore "Data Structures" 1 1 1 "a" 100).1 = true ∧
     (save_lesson_code (save_lesson_code sampleStore "Data Structures" 1 1 1 "a" 100).2
       "Data Structures" 1 1 1 "b" 260).1 = true ∧
     get_lesson_time_spent
       (save_lesson_code (save_lesson_code sampleStore "Data Structures" 1 1 1 "a" 100).2
         "Data Structures" 1 1 1 "b" 260).2 "Data Structures" 1 1 1 =
       some (((260 - 100) / 60 : Nat) : Int) ∧
     get_lesson_time_spent
       (save_lesson_code
         (save_lesson_code (save_lesson_code sampleStore "Data Structures" 1 1 1 "a" 100).2
           "Data Structures" 1 1 1 "b" 260).2 "Data Structures" 1 1 1 "c" 400).2
       "Data Structures" 1 1 1 = some (((400 - 100) / 60 : Nat) : Int)) :=
  ⟨⟨by decide, by decide, by decide, rfl, by decide, by decide⟩,
   (save_code_time_accounting sampleStore "Data Structures" 1 1 1 0 0 0 0
     sampleCourse sampleLesson sampleCi "a" "b" "c" 100 260 400
     (by decide) (by decide) (by decide)).1 rfl (by decide) (by decide)⟩

/-- C3: materialization is full-replace — re-materializing the same course
name wipes the previous directory first, so creating twice (any contents, any
times) leaves exactly the store produced by the second creation alone, and
the stored course directory afterwards is exactly the one built from the
second document. -/
theorem create_course_full_replace (st : List CourseDir) (name : String)
    (d₁ d₂ : CourseDoc) (t₁ t₂ t : Nat) :
    create_course_structure (create_course_structure st t₁ name d₁) t₂ name d₂ =
      create_course_structure st t₂ name d₂ ∧
    findCourse (create_course_structure st t name d₂) name =
      some (buildCourse t name d₂) := by
  constructor
  · rw [create_eq_filter, create_eq_filter, create_eq_filter]
    rw [List.filter_append]
    rw [List.filter_filter]
    have h1 : List.filter (fun a => a.dirName != safe_name name)
        [buildCourse t₁ name d₁] = [] := by
      simp [buildCourse]
    rw [h1]
    have h2 : (fun (a : CourseDir) =>
        (a.dirName != safe_name name) && (a.dirName != safe_name name)) =
        (fun a => a.dirName != safe_name name) := by
      funext a
      rw [Bool.and_self]
    rw [h2]
    simp
  · exact findCourse_create st t name d₂

/-- A store whose only lesson directory was renamed with a `01` prefix while
its metadata still says `index = 2`: directory names and metadata disagree. -/
def cxCi : ConceptInfo :=
  { name := "x"
    agenda := "WRONG"
    index := 2
    subsection_name := "s"
    section_name := "m"
    created_at := TimeStr.iso 0
    completed := false
    detailed_plan := none
    completed_at := none
    code_file := none
    first_code_update := none
    last_code_update := none
    total_time_minutes := none
    youtube_videos := none
    youtube_videos_file := none }

def cxLesson : LessonDir :=
  { dirName := "lesson_01_x"
    conceptInfo := some cxCi
    agendaTxt := some "WRONG"
    detailedPlanTxt := none
    studentCodeTxt := none
    youtubeVideosJson := none
    videoFiles := [] }

def cxStore : List CourseDir :=
  [{ dirName := "c"
     courseStructure := none
     modules :=
       [{ dirName := "module_01_m"
          sectionInfo := some { name := "m", index := 1, created_at := TimeStr.iso 0 }
          submodules :=
            [{ dirName := "submodule_01_s"
               subsectionInfo := some
                 { name := "s", index := 1, section_name := "m"
                   created_at := TimeStr.iso 0 }
               lessons := [cxLesson] }] }] }]

/-- C1 counterexample: at coordinate (1,1,1) the glob fast path of
`get_lesson_agenda` returns the agenda of the store's only lesson although
that lesson's *stored* index is 2 — no lesson with stored index 1 exists
(indeed the metadata locator finds nothing).  Resolution therefore can return
a lesson whose stored index mismatches the request. -/
theorem lesson_resolution_counterexample :
    get_lesson_agenda cxStore "c" 1 1 1 = some "WRONG" ∧
    (allLessons cxStore).all
      (fun ld => (ld.conceptInfo.map ConceptInfo.index) != some 1) = true ∧
    get_lesson_directory cxStore "c" 1 1 1 = none := by decide

/-- C1 (amended): the metadata-scan locator `_get_lesson_directory` never
returns a lesson whose stored index mismatches the request at any of the
three levels; when the course directory does not exist, both it and
`get_lesson_agenda` return `None`; when neither the glob fast path nor the
metadata fallback matches, `get_lesson_agenda` returns `None`; and the
metadata fallback path of `get_lesson_agenda` only ever returns the agenda of
a lesson whose stored indices match exactly at every level.  (The glob fast
path, by contrast, matches on directory-name prefixes only — see the
counterexample.) -/
theorem lesson_resolution_amended (st : List CourseDir) (course : String)
    (mi si li : Nat) :
    (∀ ld, get_lesson_directory st course mi si li = some ld →
      ∃ c m sm, findCourse st course = some c ∧
        m ∈ c.modules ∧ matchSec m mi = true ∧
        sm ∈ m.submodules ∧ matchSub sm si = true ∧
        ld ∈ sm.lessons ∧ matchLes ld li = true) ∧
    (findCourse st course = none →
      get_lesson_directory st course mi si li = none ∧
      get_lesson_agenda st course mi si li = none) ∧
    (∀ c, findCourse st course = some c →
      fastAgenda c mi si li = none → fallbackAgenda c mi si li = none →
      get_lesson_agenda st course mi si li = none) ∧
    (∀ c a, findCourse st course = some c → fallbackAgenda c mi si li = some a →
      ∃ m info sm sinfo ld ci,
        m ∈ c.modules ∧ m.sectionInfo = some info ∧ info.index = mi ∧
        sm ∈ m.submodules ∧ sm.subsectionInfo = some sinfo ∧ sinfo.index = si ∧
        ld ∈ sm.lessons ∧ ld.conceptInfo = some ci ∧ ci.index = li ∧
        a = ci.agenda) := by
  refine ⟨?_, ?_, ?_, ?_⟩
  · intro ld h
    rcases hfc : findCoursePos st course with _ | ⟨pc, c⟩
    · simp [get_lesson_directory, hfc] at h
    · simp only [get_lesson_directory, hfc] at h
      rcases Option.map_eq_some'.mp h with ⟨⟨⟨pm, ps, pl⟩, ld'⟩, hq, hld⟩
      subst hld
      rcases locateLesson_inv hq with ⟨m, sm, h1, h2, h3⟩
      have hm := findPos_eq_some h1
      have hs := findPos_eq_some h2
      have h3' := findPos_eq_some h3
      exact ⟨c, m, sm, by unfold findCourse; rw [hfc]; rfl,
        hm.1, hm.2, hs.1, hs.2, h3'.1, h3'.2⟩
  · intro h
    have hfc : findCoursePos st course = none := by
      unfold findCourse at h
      exact Option.map_eq_none'.mp h
    exact ⟨by simp [get_lesson_directory, hfc], by simp [get_lesson_agenda, hfc]⟩
  · intro c hc hfast hfall
    unfold findCourse at hc
    rcases Option.map_eq_some'.mp hc with ⟨⟨pc, c'⟩, hq, hc2⟩
    dsimp only at hc2
    subst hc2
    simp [get_lesson_agenda, hq, hfast, hfall]
  · intro c a hc hfall
    unfold fallbackAgenda at hfall
    rcases List.exists_of_findSome?_eq_some hfall with ⟨m, hmF, hfm⟩
    have hmMem : m ∈ c.modules := (List.mem_filter.mp hmF).1
    rcases hsec : m.sectionInfo with _ | info
    · simp [hsec] at hfm
    rw [hsec] at hfm
    dsimp only at hfm
    cases hidx : (info.index == mi) with
    | false => simp [hidx] at hfm
    | true =>
      simp only [hidx, eq_self_iff_true, if_true] at hfm
      have hmi : info.index = mi := by simpa using hidx
      rcases List.exists_of_findSome?_eq_some hfm with ⟨sm, hsmF, hfsm⟩
      have hsmMem : sm ∈ m.submodules := (List.mem_filter.mp hsmF).1
      rcases hsub : sm.subsectionInfo with _ | sinfo
      · simp [hsub] at hfsm
      rw [hsub] at hfsm
      dsimp only at hfsm
      cases hidx2 : (sinfo.index == si) with
      | false => simp [hidx2] at hfsm
      | true =>
        simp only [hidx2, eq_self_iff_true, if_true] at hfsm
        have hsi : sinfo.index = si := by simpa using hidx2
        rcases List.exists_of_findSome?_eq_some hfsm with ⟨ld, hldF, hfld⟩
        have hldMem : ld ∈ sm.lessons := (List.mem_filter.mp hldF).1
        rcases hci : ld.conceptInfo with _ | ci
        · simp [hci] at hfld
        rw [hci] at hfld
        dsimp only at hfld
        cases hidx3 : (ci.index == li) with
        | false => simp [hidx3] at hfld
        | true =>
          simp only [hidx3, eq_self_iff_true, if_true] at hfld
          have hli : ci.index = li := by simpa using hidx3
          injection hfld with ha
          exact ⟨m, info, sm, sinfo, ld, ci, hmMem, hsec, hmi, hsmMem, hsub, hsi,
            hldMem, hci, hli, ha.symm⟩

/-- C1 witness: on the freshly materialized sample course the metadata
locator resolves (1,1,2) to the second lesson, which indeed matches at all
three levels. -/
theorem lesson_resolution_witness :
    get_lesson_directory sampleStore "Data Structures" 1 1 2 = some sampleLesson2 ∧
    (∃ c m sm, findCourse sampleStore "Data Structures" = some c ∧
      m ∈ c.modules ∧ matchSec m 1 = true ∧
      sm ∈ m.submodules ∧ matchSub sm 1 = true ∧
      sampleLesson2 ∈ sm.lessons ∧ matchLes sampleLesson2 2 = true) :=
  ⟨by decide,
   (lesson_resolution_amended sampleStore "Data Structures" 1 1 2).1 sampleLesson2
     (by decide)⟩

/-! ### The `enumerate(xs[:cap], 1)` build pattern -/

theorem enumMap_take_get (l : List ε) (cap : Nat) (f : Nat × ε → α) (i : Nat)
    (e : ε) (h : l[i]? = some e) (hcap : i < cap) :
    (((l.take cap).enum).map f)[i]? = some (f (i, e)) := by
  rw [List.getElem?_map, List.getElem?_enum, List.getElem?_take]
  simp [hcap, h]

theorem enumMap_take_get_inv (l : List ε) (cap : Nat) (f : Nat × ε → α) (i : Nat)
    (a : α) (h : (((l.take cap).enum).map f)[i]? = some a) :
    ∃ e, l[i]? = some e ∧ i < cap ∧ a = f (i, e) := by
  rw [List.getElem?_map, List.getElem?_enum, List.getElem?_take] at h
  by_cases hc : i < cap
  · rw [if_pos hc] at h
    rcases hl : l[i]? with _ | e
    · rw [hl] at h
      simp at h
    · rw [hl] at h
      simp at h
      exact ⟨e, rfl, hc, h.symm⟩
  · rw [if_neg hc] at h
    simp at h

/-- C2: after materialization every created section/subsection/lesson
metadata record carries `index` equal to its 1-based position among siblings
in the input document, and the tree is capped at the first 7 sections, 10
subsections per section, and 10 concepts per subsection — extra siblings
yield no directories and no error (the function is total). -/
theorem create_index_stability (now : Nat) (name : String) (doc : CourseDoc)
    (st : List CourseDir) :
    findCourse (create_course_structure st now name doc) name =
      some (buildCourse now name doc) ∧
    (buildCourse now name doc).modules.length = min 7 doc.sections.length ∧
    (∀ i s, doc.sections[i]? = some s → i < 7 →
      ∃ m, (buildCourse now name doc).modules[i]? = some m ∧
        m.sectionInfo = some { name := s.name, index := i + 1
                               created_at := TimeStr.iso now } ∧
        m.submodules.length = min 10 s.subsections.length ∧
        (∀ j sub, s.subsections[j]? = some sub → j < 10 →
          ∃ sm, m.submodules[j]? = some sm ∧
            sm.subsectionInfo = some { name := sub.name, index := j + 1
                                       section_name := s.name
                                       created_at := TimeStr.iso now } ∧
            sm.lessons.length = min 10 sub.concepts.length ∧
            (∀ k con, sub.concepts[k]? = some con → k < 10 →
              ∃ ld, sm.lessons[k]? = some ld ∧
                ld.conceptInfo = some
                  { name := con.name, agenda := con.agenda, index := k + 1
                    subsection_name := sub.name, section_name := s.name
                    created_at := TimeStr.iso now, completed := false
                    detailed_plan := none, completed_at := none, code_file := none
                    first_code_update := none, last_code_update := none
                    total_time_minutes := none, youtube_videos := none
                    youtube_videos_file := none }))) := by
  refine ⟨findCourse_create st now name doc, ?_, ?_⟩
  · simp [buildCourse, List.length_take]
  · intro i s hs hi
    refine ⟨buildModule now (i + 1) s, ?_, rfl, ?_, ?_⟩
    · unfold buildCourse
      dsimp only
      exact enumMap_take_get _ _ _ _ _ hs hi
    · simp [buildModule, List.length_take]
    · intro j sub hsub hj
      refine ⟨buildSubmodule now s.name (j + 1) sub, ?_, rfl, ?_, ?_⟩
      · unfold buildModule
        dsimp only
        exact enumMap_take_get _ _ _ _ _ hsub hj
      · simp [buildSubmodule, List.length_take]
      · intro k con hcon hk
        refine ⟨buildLesson now s.name sub.name (k + 1) con, ?_, rfl⟩
        unfold buildSubmodule
        dsimp only
        exact enumMap_take_get _ _ _ _ _ hcon hk

def c2sec : SectionDoc := ⟨"S", [⟨"T", [⟨"C", "ag"⟩]⟩]⟩

/-- A document with 8 sections: one beyond the fan-out cap of 7. -/
def c2doc : CourseDoc :=
  ⟨[c2sec, ⟨"E2", []⟩, ⟨"E3", []⟩, ⟨"E4", []⟩, ⟨"E5", []⟩, ⟨"E6", []⟩,
    ⟨"E7", []⟩, ⟨"E8", []⟩]⟩

/-- C2 witness: materializing an 8-section document stores exactly
`min 7 8 = 7` module directories, and the first section's metadata carries
index 1 with its nested subsection/concept indices in place. -/
theorem create_index_stability_witness :
    (c2doc.sections[0]? = some c2sec ∧ 0 < 7) ∧
    findCourse (create_course_structure [] 0 "Caps" c2doc) "Caps" =
      some (buildCourse 0 "Caps" c2doc) ∧
    (buildCourse 0 "Caps" c2doc).modules.length = min 7 c2doc.sections.length ∧
    (∃ m, (buildCourse 0 "Caps" c2doc).modules[0]? = some m ∧
      m.sectionInfo = some { name := c2sec.name, index := 0 + 1
                             created_at := TimeStr.iso 0 } ∧
      m.submodules.length = min 10 c2sec.subsections.length ∧
      (∀ j sub, c2sec.subsections[j]? = some sub → j < 10 →
        ∃ sm, m.submodules[j]? = some sm ∧
          sm.subsectionInfo = some { name := sub.name, index := j + 1
                                     section_name := c2sec.name
                                     created_at := TimeStr.iso 0 } ∧
          sm.lessons.length = min 10 sub.concepts.length ∧
          (∀ k con, sub.concepts[k]? = some con → k < 10 →
            ∃ ld, sm.lessons[k]? = some ld ∧
              ld.conceptInfo = some
                { name := con.name, agenda := con.agenda, index := k + 1
                  subsection_name := sub.name, section_name := c2sec.name
                  created_at := TimeStr.iso 0, completed := false
                  detailed_plan := none, completed_at := none, code_file := none
                  first_code_update := none, last_code_update := none
                  total_time_minutes := none, youtube_videos := none
                  youtube_videos_file := none }))) :=
  ⟨⟨rfl, by decide⟩, (create_index_stability 0 "Caps" c2doc []).1,
   (create_index_stability 0 "Caps" c2doc []).2.1,
   (create_index_stability 0 "Caps" c2doc []).2.2 0 c2sec rfl (by decide)⟩

/-- C9 counterexample: materializing "Data Structures" with section "Arrays",
subsection "Basics" and concepts "Indexing"/"Traversal" creates
`module_01_Arrays/submodule_01_Basics/lesson_01_Indexing`, not the
`section_01_.../subsection_01_...` path the claim asserts — no directory with
a `section_` or `subsection_` name prefix exists. -/
theorem directory_naming_counterexample :
    (findCourse sampleStore "Data Structures").map
      (fun c => c.modules.map (fun m => m.dirName)) = some ["module_01_Arrays"] ∧
    (findCourse sampleStore "Data Structures").map
      (fun c => c.modules.map (fun m => m.submodules.map (fun sm => sm.dirName))) =
      some [["submodule_01_Basics"]] ∧
    (allLessons sampleStore).map (fun ld => ld.dirName) =
      ["lesson_01_Indexing", "lesson_02_Traversal"] ∧
    (findCourse sampleStore "Data Structures").map
      (fun c => (c.modules.filter (fun m => strStartsWith m.dirName "section_")).length) =
      some 0 ∧
    (allLessons sampleStore).map (fun ld => ld.conceptInfo.map
      (fun ci => (ci.index, ci.completed))) = [some (1, false), some (2, false)] := by
  decide

/-- C9 (amended): directories are named `module_<NN>_<sanitized>`,
`submodule_<NN>_<sanitized>` and `lesson_<NN>_<sanitized>` with `NN` the
2-digit zero-padded 1-based index, and each lesson's metadata carries its
1-based index with `completed = false`; in particular "Data Structures" /
"Arrays" / "Basics" / "Indexing" yields
`Data_Structures/module_01_Arrays/submodule_01_Basics/lesson_01_Indexing`
with `index 1, completed false` (see the witness). -/
theorem directory_naming_amended (now : Nat) (name : String) (doc : CourseDoc) :
    (buildCourse now name doc).dirName = safe_name name ∧
    (∀ i m, (buildCourse now name doc).modules[i]? = some m →
      ∃ s, doc.sections[i]? = some s ∧
        m.dirName = "module_" ++ pad2 (i + 1) ++ "_" ++ safe_name s.name ∧
        (∀ j sm, m.submodules[j]? = some sm →
          ∃ sub, s.subsections[j]? = some sub ∧
            sm.dirName = "submodule_" ++ pad2 (j + 1) ++ "_" ++ safe_name sub.name ∧
            (∀ k ld, sm.lessons[k]? = some ld →
              ∃ con, sub.concepts[k]? = some con ∧
                ld.dirName = "lesson_" ++ pad2 (k + 1) ++ "_" ++ safe_name con.name ∧
                ∃ ci, ld.conceptInfo = some ci ∧ ci.index = k + 1 ∧
                  ci.completed = false))) := by
  refine ⟨rfl, ?_⟩
  intro i m hm
  rw [show (buildCourse now name doc).modules =
    ((doc.sections.take 7).enum).map (fun p => buildModule now (p.1 + 1) p.2) from rfl] at hm
  obtain ⟨s, hs, hi, hmeq⟩ := enumMap_take_get_inv _ _ _ _ _ hm
  subst hmeq
  refine ⟨s, hs, rfl, ?_⟩
  intro j sm hsm
  rw [show (buildModule now (i + 1) s).submodules =
    ((s.subsections.take 10).enum).map
      (fun p => buildSubmodule now s.name (p.1 + 1) p.2) from rfl] at hsm
  obtain ⟨sub, hsub, hj, hsmeq⟩ := enumMap_take_get_inv _ _ _ _ _ hsm
  subst hsmeq
  refine ⟨sub, hsub, rfl, ?_⟩
  intro k ld hld
  rw [show (buildSubmodule now s.name (j + 1) sub).lessons =
    ((sub.concepts.take 10).enum).map
      (fun p => buildLesson now s.name sub.name (p.1 + 1) p.2) from rfl] at hld
  obtain ⟨con, hcon, hk, hldeq⟩ := enumMap_take_get_inv _ _ _ _ _ hld
  subst hldeq
  exact ⟨con, hcon, rfl, _, rfl, rfl, rfl⟩

def dsModule : ModuleDir :=
  buildModule 0 1 ⟨"Arrays", [⟨"Basics", [⟨"Indexing", "idx agenda"⟩,
    ⟨"Traversal", "trav agenda"⟩]⟩]⟩

/-- C9 witness: the amended naming theorem applied to the sample course's
first module, whose name is `module_01_Arrays`. -/
theorem directory_naming_witness :
    (buildCourse 0 "Data Structures" sampleDoc).dirName = safe_name "Data Structures" ∧
    (buildCourse 0 "Data Structures" sampleDoc).modules[0]? = some dsModule ∧
    (∃ s, sampleDoc.sections[0]? = some s ∧
      dsModule.dirName = "module_" ++ pad2 (0 + 1) ++ "_" ++ safe_name s.name ∧
      (∀ j sm, dsModule.submodules[j]? = some sm →
        ∃ sub, s.subsections[j]? = some sub ∧
          sm.dirName = "submodule_" ++ pad2 (j + 1) ++ "_" ++ safe_name sub.name ∧
          (∀ k ld, sm.lessons[k]? = some ld →
            ∃ con, sub.concepts[k]? = some con ∧
              ld.dirName = "lesson_" ++ pad2 (k + 1) ++ "_" ++ safe_name con.name ∧
              ∃ ci, ld.conceptInfo = some ci ∧ ci.index = k + 1 ∧
                ci.completed = false))) :=
  ⟨(directory_naming_amended 0 "Data Structures" sampleDoc).1, by decide,
   (directory_naming_amended 0 "Data Structures" sampleDoc).2 0 dsModule (by decide)⟩

/-- C10: for a course name with no alphanumerics, spaces, hyphens or
underscores the sanitizer returns the empty string, `pathlib` join makes the
course directory the store's base directory itself, and since the base
directory exists the prologue of `create_course_structure` recursively
deletes it — every previously stored path below the base (in particular every
stored course) is destroyed — before the new course's files are written
directly at the store root (`base / "" / seg = base ++ [seg]`). -/
theorem empty_safe_name_destroys_store (name : String)
    (hname : ∀ ch ∈ name.data, keepChar ch = false) :
    safe_name name = "" ∧
    ∀ (base : PPath) (fs : List PPath) (p : PPath),
      courseDirPath base name = base ∧
      (base ∈ fs → p ∈ fs → base.isPrefixOf p = true → p ≠ base →
        p ∉ createProloguePaths fs base name) ∧
      (∀ seg, seg ≠ "" → pjoin (courseDirPath base name) seg = base ++ [seg]) := by
  have hfil : name.data.filter keepChar = [] := by
    rw [List.filter_eq_nil_iff]
    intro a ha
    simp [hname a ha]
  have hsn : safe_name name = "" := by
    unfold safe_name
    rw [hfil]
    rfl
  have hcd : ∀ base : PPath, courseDirPath base name = base := by
    intro base
    simp [courseDirPath, pjoin, hsn]
  refine ⟨hsn, fun base fs p => ⟨hcd base, ?_, ?_⟩⟩
  · intro hb hp hpre hne
    unfold createProloguePaths
    rw [hcd base]
    have hcont : fs.contains base = true := List.elem_eq_true_of_mem hb
    dsimp only
    rw [if_pos hcont]
    intro hmem
    rcases List.mem_append.mp hmem with hmem1 | hmem2
    · have := (List.mem_filter.mp hmem1).2
      rw [hpre] at this
      cases this
    · exact hne (List.mem_singleton.mp hmem2)
  · intro seg hseg
    rw [hcd base]
    simp [pjoin, hseg]

/-- C10 witness: the name `"!!!"` sanitizes to the empty string; with base
directory `courses` holding a stored course `courses/Old`, the prologue
deletes `courses/Old`, and the new files go to `courses/<file>` directly. -/
theorem empty_safe_name_destroys_store_witness :
    (∀ ch ∈ "!!!".data, keepChar ch = false) ∧
    safe_name "!!!" = "" ∧
    courseDirPath ["courses"] "!!!" = ["courses"] ∧
    (["courses"] ∈ [["courses"], ["courses", "Old"]] →
      ["courses", "Old"] ∈ [["courses"], ["courses", "Old"]] →
      List.isPrefixOf ["courses"] ["courses", "Old"] = true →
      ["courses", "Old"] ≠ ["courses"] →
      ["courses", "Old"] ∉
        createProloguePaths [["courses"], ["courses", "Old"]] ["courses"] "!!!") ∧
    (∀ seg, seg ≠ "" →
      pjoin (courseDirPath ["courses"] "!!!") seg = ["courses"] ++ [seg]) := by
  have h := empty_safe_name_destroys_store "!!!" (by decide)
  have h2 := h.2 ["courses"] [["courses"], ["courses", "Old"]] ["courses", "Old"]
  exact ⟨by decide, h.1, h2.1, h2.2.1, h2.2.2⟩

/-! ### Sums over the progress walk -/

theorem mapSum_congr [AddCommMonoid M] {l : List α} {g h : α → M}
    (hgh : ∀ a ∈ l, g a = h a) : (l.map g).sum = (l.map h).sum := by
  induction l with
  | nil => rfl
  | cons b bs ih =>
    simp only [List.map_cons, List.sum_cons]
    rw [hgh b (List.mem_cons_self _ _), ih (fun a ha => hgh a (List.mem_cons_of_mem _ ha))]

theorem mapSum_insertByName [AddCommMonoid M] (nm : α → String) (g : α → M) (a : α) :
    ∀ l : List α, ((insertByName nm a l).map g).sum = g a + (l.map g).sum := by
  intro l
  induction l with
  | nil => simp [insertByName]
  | cons b bs ih =>
    unfold insertByName
    split
    · simp
    · simp only [List.map_cons, List.sum_cons, ih]
      rw [add_left_comm]

theorem mapSum_sortByName [AddCommMonoid M] (nm : α → String) (g : α → M) :
    ∀ l : List α, ((sortByName nm l).map g).sum = (l.map g).sum := by
  intro l
  induction l with
  | nil => rfl
  | cons b bs ih =>
    unfold sortByName
    rw [mapSum_insertByName, ih]
    simp

theorem mapSum_filter [AddCommMonoid M] (q : α → Bool) (g : α → M) :
    ∀ l : List α, ((l.filter q).map g).sum =
      (l.map (fun a => if q a then g a else 0)).sum := by
  intro l
  induction l with
  | nil => rfl
  | cons b bs ih =>
    cases hb : q b <;> simp [List.filter_cons, hb, ih]

theorem mapSum_filterMap [AddCommMonoid M] (f : α → Option β) (g : β → M) :
    ∀ l : List α, ((l.filterMap f).map g).sum =
      (l.map (fun a => match f a with | some b => g b | none => 0)).sum := by
  intro l
  induction l with
  | nil => rfl
  | cons b bs ih =>
    cases hb : f b <;> simp [List.filterMap_cons, hb, ih]

theorem mapSum_flatMap [AddCommMonoid M] (f : α → List β) (g : β → M) :
    ∀ l : List α, ((l.flatMap f).map g).sum =
      (l.map (fun a => ((f a).map g).sum)).sum := by
  intro l
  induction l with
  | nil => rfl
  | cons b bs ih => simp [List.flatMap_cons, List.map_append, List.sum_append, ih]

/-- Any additive measure summed over the (sorted, skip-on-missing) progress
walk equals the same measure summed over the claim-side `readableLessons`
list: sorting permutes siblings and the two filter shapes coincide. -/
theorem walk_readable_mapSum [AddCommMonoid M] (g : ConceptInfo → M) (c : CourseDir) :
    ((walkLessonInfos c).map g).sum = ((readableLessons c).map g).sum := by
  unfold walkLessonInfos readableLessons
  simp only [mapSum_flatMap, mapSum_filterMap, mapSum_sortByName, mapSum_filter]
  apply mapSum_congr
  intro m _
  cases hm1 : strStartsWith m.dirName "module_" <;>
    cases hm2 : m.sectionInfo.isSome <;> simp [hm1, hm2]
  apply mapSum_congr
  intro sm _
  cases hs1 : strStartsWith sm.dirName "submodule_" <;>
    cases hs2 : sm.subsectionInfo.isSome <;> simp [hs1, hs2]

theorem list_length_eq_mapSum (l : List α) :
    l.length = (l.map (fun _ => (1 : ℕ))).sum := by
  induction l with
  | nil => rfl
  | cons b bs ih =>
    simp only [List.length_cons, List.map_cons, List.sum_cons, ih]
    omega

theorem list_countP_eq_mapSum (l : List α) (p : α → Bool) :
    l.countP p = (l.map (fun a => if p a then (1 : ℕ) else 0)).sum := by
  induction l with
  | nil => rfl
  | cons b bs ih =>
    cases hb : p b <;>
      simp only [List.countP_cons, List.map_cons, List.sum_cons, hb, if_true, if_false, ih] <;>
      omega

/-- C6: for an existing course, `get_course_progress` succeeds and reports
`total_lessons` equal to the number of reachable lessons with readable
metadata, `completed_lessons` equal to the number of those with
`completed = true`, `total_time_minutes` the sum of their
`total_time_minutes` with missing/null counted as zero, and
`completion_percentage = 100 * k / N` with `0` when `N = 0` — nodes with
missing metadata are skipped, never failing the walk. -/
theorem progress_aggregation (st : List CourseDir) (course : String) (c : CourseDir)
    (hc : findCourse st course = some c) :
    ∃ r, get_course_progress st course = ProgressResult.ok r ∧
      r.total_lessons = (readableLessons c).length ∧
      r.completed_lessons = (readableLessons c).countP (fun ci => ci.completed) ∧
      r.total_time_minutes =
        ((readableLessons c).map (fun ci => ci.total_time_minutes.getD 0)).sum ∧
      r.completion_percentage =
        (if (readableLessons c).length = 0 then 0
         else 100 * ((readableLessons c).countP (fun ci => ci.completed) : ℚ) /
           ((readableLessons c).length : ℚ)) := by
  unfold findCourse at hc
  rcases Option.map_eq_some'.mp hc with ⟨⟨pc, c'⟩, hq, hc2⟩
  dsimp only at hc2
  rw [hc2] at hq
  have hlen : (walkLessonInfos c).length = (readableLessons c).length := by
    rw [list_length_eq_mapSum, list_length_eq_mapSum]
    exact walk_readable_mapSum _ c
  have hcount : (walkLessonInfos c).countP (fun ci => ci.completed) =
      (readableLessons c).countP (fun ci => ci.completed) := by
    rw [list_countP_eq_mapSum, list_countP_eq_mapSum]
    exact walk_readable_mapSum _ c
  have htime : ((walkLessonInfos c).map (fun ci => ci.total_time_minutes.getD 0)).sum =
      ((readableLessons c).map (fun ci => ci.total_time_minutes.getD 0)).sum :=
    walk_readable_mapSum _ c
  have hgp : get_course_progress st course = ProgressResult.ok
      { course_name := course
        total_lessons := (walkLessonInfos c).length
        completed_lessons := (walkLessonInfos c).countP (fun ci => ci.completed)
        total_time_minutes :=
          ((walkLessonInfos c).map (fun ci => ci.total_time_minutes.getD 0)).sum
        completion_percentage :=
          if (walkLessonInfos c).length > 0
          then (((walkLessonInfos c).countP (fun ci => ci.completed) : ℚ) /
            ((walkLessonInfos c).length : ℚ)) * 100
          else 0
        modules := walkReportModules c } := by
    unfold get_course_progress
    rw [hq]
  refine ⟨_, hgp, hlen, hcount, htime, ?_⟩
  dsimp only
  rw [hlen, hcount]
  rcases Nat.eq_zero_or_pos (readableLessons c).length with hz | hp
  · rw [hz]
    simp
  · rw [if_pos hp, if_neg (Nat.pos_iff_ne_zero.mp hp)]
    rw [div_mul_eq_mul_div, mul_comm]

/-- C6 witness: the aggregation theorem applied to the sample course, whose
report shows 2 lessons, 0 completed, percentage 0. -/
theorem progress_aggregation_witness :
    findCourse sampleStore "Data Structures" = some sampleCourse ∧
    (∃ r, get_course_progress sampleStore "Data Structures" = ProgressResult.ok r ∧
      r.total_lessons = (readableLessons sampleCourse).length ∧
      r.completed_lessons =
        (readableLessons sampleCourse).countP (fun ci => ci.completed) ∧
      r.total_time_minutes =
        ((readableLessons sampleCourse).map
          (fun ci => ci.total_time_minutes.getD 0)).sum ∧
      r.completion_percentage =
        (if (readableLessons sampleCourse).length = 0 then 0
         else 100 * ((readableLessons sampleCourse).countP
             (fun ci => ci.completed) : ℚ) /
           ((readableLessons sampleCourse).length : ℚ))) :=
  ⟨by decide,
   progress_aggregation sampleStore "Data Structures" sampleCourse (by decide)⟩
